import Mathlib

/-!
Verification of the wallet challenge/response authentication subsystem of
grainlify (backend/internal/handlers/auth.go and its auth/github collaborators).

Strings are embedded as lists of character codes (`Str := List Nat`), matching
Go's byte-string view.  The HTTP handlers `Nonce`, `Verify` and `Me` are
translated directly from auth.go; the `auth` and `github` package functions
they call are not part of the provided sources, so those are modelled from the
specification (each such definition carries a doc comment saying so).
-/

namespace Grainlify

/-- Strings are modelled as lists of character codes. -/
abbrev Str := List Nat

/-- Modelled from the spec (§3 WalletType): the enumerated chain families.
The spec names an EVM-style and a Solana-style family. -/
inductive WalletType
  | evm
  | solana
deriving DecidableEq, Repr

/-- Lower-case a single character code (ASCII letters A..Z map to a..z). -/
def lowerCode (n : Nat) : Nat :=
  if 65 ≤ n ∧ n ≤ 90 then n + 32 else n

/-- Lower-case a whole string of character codes. -/
def strLower (s : Str) : Str := s.map lowerCode

/-- Character codes of the canonical wallet-type name "evm". -/
def evmName : Str := [101, 118, 109]

/-- Character codes of the canonical wallet-type name "solana". -/
def solanaName : Str := [115, 111, 108, 97, 110, 97]

/-- Modelled from the spec (§4.1): `NormalizeWalletType` maps case-insensitive
known aliases to the canonical enumerated type; unknown values fail. -/
def NormalizeWalletType (raw : Str) : Option WalletType :=
  if strLower raw = evmName then some .evm
  else if strLower raw = solanaName then some .solana
  else none

/-- A hexadecimal digit character code: 0-9, a-f or A-F. -/
def isHexCode (n : Nat) : Bool :=
  decide ((48 ≤ n ∧ n ≤ 57) ∨ (97 ≤ n ∧ n ≤ 102) ∨ (65 ≤ n ∧ n ≤ 70))

/-- A base58 character code: 1-9 and letters without 0, O, I, l. -/
def isBase58Code (n : Nat) : Bool :=
  decide ((49 ≤ n ∧ n ≤ 57) ∨
          (65 ≤ n ∧ n ≤ 72) ∨ (74 ≤ n ∧ n ≤ 78) ∨ (80 ≤ n ∧ n ≤ 90) ∨
          (97 ≤ n ∧ n ≤ 107) ∨ (109 ≤ n ∧ n ≤ 122))

/-- Modelled from the spec (§4.1): `NormalizeAddress` applies per-type rules,
fixed-length hex with case-folded canonical form for the EVM family ("0x"
followed by 40 hex digits, canonicalized to lower case), base58 fixed-length
(32..44 characters, case-significant hence kept verbatim) for the Solana
family; malformed length or charset is rejected. -/
def NormalizeAddress (w : WalletType) (raw : Str) : Option Str :=
  match w with
  | .evm =>
      if raw.length = 42 ∧ raw.take 2 = [48, 120] ∧ (raw.drop 2).all isHexCode
      then some (strLower raw)
      else none
  | .solana =>
      if 32 ≤ raw.length ∧ raw.length ≤ 44 ∧ raw.all isBase58Code
      then some raw
      else none

/-- Two raw spellings denote the same logical address: for the case-folded EVM
family they agree up to letter case; the base58 family is case-significant, so
only identical spellings coincide. -/
def sameLogicalSpelling (w : WalletType) (a b : Str) : Prop :=
  match w with
  | .evm => strLower a = strLower b
  | .solana => a = b

theorem lowerCode_idem (n : Nat) : lowerCode (lowerCode n) = lowerCode n := by
  unfold lowerCode
  split
  · split <;> omega
  · rfl

theorem strLower_idem (s : Str) : strLower (strLower s) = strLower s := by
  induction s with
  | nil => rfl
  | cons a l ih =>
      simp only [strLower, List.map_cons] at *
      rw [lowerCode_idem]
      exact congrArg _ (by simpa [strLower] using ih)

theorem isHexCode_lowerCode {n : Nat} (h : isHexCode n = true) :
    isHexCode (lowerCode n) = true := by
  simp only [isHexCode, lowerCode, decide_eq_true_eq] at *
  split <;> omega

theorem length_strLower (s : Str) : (strLower s).length = s.length := by
  simp [strLower]

theorem take_strLower (s : Str) (k : Nat) :
    (strLower s).take k = strLower (s.take k) := by
  simp [strLower, List.map_take]

theorem drop_strLower (s : Str) (k : Nat) :
    (strLower s).drop k = strLower (s.drop k) := by
  simp [strLower, List.map_drop]

theorem normalizeAddress_evm_eq {raw : Str}
    (h1 : raw.length = 42) (h2 : raw.take 2 = [48, 120])
    (h3 : (raw.drop 2).all isHexCode = true) :
    NormalizeAddress .evm raw = some (strLower raw) := by
  simp [NormalizeAddress, h1, h2, h3]

theorem normalizeAddress_evm_valid_lower {raw : Str}
    (h1 : raw.length = 42) (h2 : raw.take 2 = [48, 120])
    (h3 : (raw.drop 2).all isHexCode = true) :
    (strLower raw).length = 42 ∧ (strLower raw).take 2 = [48, 120] ∧
      ((strLower raw).drop 2).all isHexCode = true := by
  refine ⟨by rw [length_strLower, h1], ?_, ?_⟩
  · rw [take_strLower, h2]; rfl
  · rw [drop_strLower]
    rw [List.all_eq_true] at h3 ⊢
    intro x hx
    rw [strLower, List.mem_map] at hx
    obtain ⟨y, hy, rfl⟩ := hx
    exact isHexCode_lowerCode (h3 y hy)

/-- Modelled from the spec (§3 Nonce): token, owning wallet identity, creation
and expiry times, consumed flag. -/
structure Nonce where
  token : Str
  walletType : WalletType
  address : Str
  createdAt : Nat
  expiresAt : Nat
  consumed : Bool
deriving DecidableEq, Repr

/-- Modelled from the spec (§3 User): stable identity record with id and role. -/
structure User where
  id : Nat
  role : Str
deriving DecidableEq, Repr

/-- Modelled from the spec (§3 WalletLink, §4.4 d): a row relating a user to a
wallet identity, optionally carrying the supplied public key. -/
structure LinkRow where
  user : User
  walletType : WalletType
  address : Str
  publicKey : Str
deriving DecidableEq, Repr

/-- The transactional store state seen by the authentication flow: the nonce
table, the user/wallet-link rows, and a fresh-id counter. -/
structure DBState where
  nonces : List Nonce
  rows : List LinkRow
  nextId : Nat
deriving DecidableEq, Repr

/-- Character codes of the default role "user" given to a freshly created user. -/
def defaultRole : Str := [117, 115, 101, 114]

/-- Modelled from the spec (§4.3): a signature binds the signing wallet
identity (chain family and canonical address) to one exact message.  The empty
signature string of the request is modelled as `none` at the request level. -/
structure Sig where
  sigWalletType : WalletType
  signer : Str
  msg : Str
deriving DecidableEq, Repr

/-- Modelled from the spec (§4.3): `VerifySignature` checks the scheme of the
claimed wallet type, recovers the signer from (message, signature) and compares
its canonical address with the claimed address; an absent signature fails. -/
def VerifySignature (w : WalletType) (addr : Str) (message : Str)
    (signature : Option Sig) (_publicKey : Str) : Bool :=
  match signature with
  | none => false
  | some s => decide (s.sigWalletType = w ∧ s.signer = addr ∧ s.msg = message)

/-- Character codes of the header shared by both login message renderings. -/
def msgHeader : Str := [103, 114, 97, 105, 110, 108, 105, 102, 121, 58]

/-- Modelled from the spec (§4.2): the current canonical human-readable login
message, embedding the nonce token verbatim after a real newline. -/
def LoginMessage (nonce : Str) : Str := msgHeader ++ [10] ++ nonce

/-- Modelled from the spec (§4.2, §4.3): the legacy rendering of the login
message, embedding the nonce token verbatim after a literal backslash-n. -/
def LegacyLoginMessage (nonce : Str) : Str := msgHeader ++ [92, 110] ++ nonce

/-- A nonce row is keyed by this token and wallet identity. -/
def nonceMatches (w : WalletType) (a t : Str) (n : Nonce) : Bool :=
  decide (n.token = t ∧ n.walletType = w ∧ n.address = a)

/-- A nonce row is live at `now`: not yet consumed and not past its expiry. -/
def nonceLive (now : Nat) (n : Nonce) : Bool :=
  !n.consumed && decide (now < n.expiresAt)

/-- Modelled from the spec (§4.4 a, b): the in-transaction atomic conditional
update — the first live row keyed by (token, wallet identity) is marked
consumed; `none` when no such live row exists. -/
def consumeNonce (now : Nat) (w : WalletType) (a t : Str) :
    List Nonce → Option (List Nonce)
  | [] => none
  | n :: rest =>
      if nonceMatches w a t n && nonceLive now n then
        some ({ n with consumed := true } :: rest)
      else
        (consumeNonce now w a t rest).map (n :: ·)

/-- Modelled from the spec (§4.2 CreateNonce): record (token, walletType,
address, now, now+ttl) in the store; the random token is passed in as the
`freshTok` argument (randomness modelled as an input). -/
def CreateNonce (st : DBState) (now : Nat) (w : WalletType) (a : Str)
    (ttl : Nat) (freshTok : Str) : Nonce × DBState :=
  let n : Nonce := ⟨freshTok, w, a, now, now + ttl, false⟩
  (n, { st with nonces := st.nonces ++ [n] })

/-- Modelled from the spec (§4.4): one atomic all-or-nothing transaction —
consume the nonce (fail if absent, consumed or expired), then reuse the user of
an existing wallet link or create a new user and link; any failure rolls the
whole transaction back. -/
def ConsumeNonceAndUpsertUser (st : DBState) (now : Nat) (w : WalletType)
    (a tok pk : Str) : Option (User × LinkRow × DBState) :=
  match consumeNonce now w a tok st.nonces with
  | none => none
  | some ns =>
      match st.rows.find? (fun r => decide (r.walletType = w ∧ r.address = a)) with
      | some r => some (r.user, r, { st with nonces := ns })
      | none =>
          let u : User := ⟨st.nextId, defaultRole⟩
          let r : LinkRow := ⟨u, w, a, pk⟩
          some (u, r, ⟨ns, st.rows ++ [r], st.nextId + 1⟩)

/-- Modelled from the spec (§4.5, §3 SessionToken): a signed self-contained
token carrying user id, role, wallet type and address as claims, with an
expiry instant. -/
structure Jwt where
  secret : Str
  userId : Nat
  role : Str
  walletType : WalletType
  address : Str
  expiresAt : Nat
deriving DecidableEq, Repr

/-- Modelled from the spec (§4.5 IssueJWT): mint the signed time-bounded token
from the secret, identity claims and ttl. -/
def IssueJWT (secret : Str) (userId : Nat) (role : Str) (w : WalletType)
    (addr : Str) (now ttl : Nat) : Jwt :=
  ⟨secret, userId, role, w, addr, now + ttl⟩

/-- The parsed body of a nonce request (auth.go `nonceRequest`). -/
structure NonceReq where
  walletType : Str
  address : Str
deriving DecidableEq, Repr

/-- The parsed body of a verify request (auth.go `verifyRequest`); the empty
signature string is modelled as `none`. -/
structure VerifyReq where
  walletType : Str
  address : Str
  nonce : Str
  signature : Option Sig
  publicKey : Str
deriving DecidableEq, Repr

/-- The possible responses of the `Nonce` handler, one constructor per
`return` in auth.go (the JSON-parse and db-unavailable guards are outside the
modelled state). -/
inductive NonceResp
  | invalidWalletType
  | invalidAddress
  | nonceCreateFailed
  | ok (token : Str) (message : Str) (expiresAt : Nat)
deriving DecidableEq, Repr

/-- Output of the `Nonce` handler: response, resulting store state, and the
number of storage operations performed. -/
structure NOut where
  resp : NonceResp
  st : DBState
  storageOps : Nat
deriving DecidableEq, Repr

/-- The `Nonce` handler of auth.go: normalize the wallet type, normalize the
address, then create a 10-minute nonce and answer with the token, the canonical
login message and the expiry. -/
def NonceHandler (st : DBState) (now : Nat) (freshTok : Str) (req : NonceReq) :
    NOut :=
  match NormalizeWalletType req.walletType with
  | none => ⟨.invalidWalletType, st, 0⟩
  | some w =>
      match NormalizeAddress w req.address with
      | none => ⟨.invalidAddress, st, 0⟩
      | some a =>
          let p := CreateNonce st now w a (10 * 60) freshTok
          ⟨.ok p.1.token (LoginMessage p.1.token) p.1.expiresAt, p.2, 1⟩

/-- The possible responses of the `Verify` handler, one constructor per
`return` in auth.go. -/
inductive VerifyResp
  | invalidWalletType
  | invalidAddress
  | missingNonceOrSignature
  | invalidSignature
  | invalidOrExpiredNonce
  | authFailed
  | tokenIssueFailed
  | success (token : Jwt) (user : User) (walletType : WalletType) (address : Str)
deriving DecidableEq, Repr

/-- Output of the `Verify` handler: response, resulting store state, and the
number of storage operations performed. -/
structure VOut where
  resp : VerifyResp
  st : DBState
  storageOps : Nat
deriving DecidableEq, Repr

/-- The signature check loop of auth.go `Verify`: try the canonical message
first, then the legacy one; success on any rendering counts. -/
def sigAccepted (w : WalletType) (a : Str) (nonce : Str) (signature : Option Sig)
    (pk : Str) : Bool :=
  [LoginMessage nonce, LegacyLoginMessage nonce].any
    (fun m => VerifySignature w a m signature pk)

/-- The `Verify` handler of auth.go: normalize wallet type and address, require
a nonce and a signature, check the signature against the canonical and the
legacy message renderings, atomically consume the nonce and upsert the
identity, and issue a 15-minute bearer token. -/
def VerifyHandler (jwtSecret : Str) (st : DBState) (now : Nat)
    (req : VerifyReq) : VOut :=
  match NormalizeWalletType req.walletType with
  | none => ⟨.invalidWalletType, st, 0⟩
  | some w =>
      match NormalizeAddress w req.address with
      | none => ⟨.invalidAddress, st, 0⟩
      | some a =>
          if req.nonce = [] ∨ req.signature = none then
            ⟨.missingNonceOrSignature, st, 0⟩
          else
            if sigAccepted w a req.nonce req.signature req.publicKey then
              match ConsumeNonceAndUpsertUser st now w a req.nonce req.publicKey with
              | none => ⟨.invalidOrExpiredNonce, st, 1⟩
              | some (u, r, st') =>
                  ⟨.success (IssueJWT jwtSecret u.id u.role r.walletType r.address now (15 * 60))
                    u r.walletType r.address, st', 1⟩
            else ⟨.invalidSignature, st, 0⟩

/-- An authenticated-encryption ciphertext: an encrypted body together with an
integrity tag bound to both the key and the body. -/
structure Ciphertext where
  body : List Nat
  tag : List Nat
deriving DecidableEq, Repr

/-- Modelled from the spec (§4.6): authenticated symmetric encryption of a
stored third-party access token under the server-held key. -/
def EncryptToken (key : Nat) (pt : List Nat) : Ciphertext :=
  let b := pt.map (fun x => x + key)
  ⟨b, key :: b⟩

/-- Modelled from the spec (§4.6): decryption first checks the integrity tag
against the key and the body, and only then inverts the body; a wrong key or a
tampered ciphertext fails with `none` instead of producing garbage. -/
def DecryptToken (key : Nat) (ct : Ciphertext) : Option (List Nat) :=
  if ct.tag = key :: ct.body ∧ ct.body.all (fun x => decide (key ≤ x)) then
    some (ct.body.map (fun x => x - key))
  else none

/-- The profile returned by the external provider's GetUser (github package):
login and avatar always present, the rest possibly empty strings. -/
structure GhUser where
  login : Str
  avatarURL : Str
  name : Str
  email : Str
  location : Str
  bio : Str
  blog : Str
deriving DecidableEq, Repr

/-- A linked external account as returned by `GetLinkedAccount`: the decrypted
access token (metadata elided). -/
structure LinkedAccount where
  accessToken : Str
deriving DecidableEq, Repr

/-- The `github` object of a `Me` response: login always present, every other
field optional (omitted when absent). -/
structure GithubMap where
  login : Str
  avatarUrl : Option Str
  name : Option Str
  email : Option Str
  location : Option Str
  bio : Option Str
  website : Option Str
deriving DecidableEq, Repr

/-- A `Me` response: HTTP status, the authenticated user id and role, and the
optional github profile object. -/
structure MeResp where
  status : Nat
  id : Option Nat
  role : Option Str
  github : Option GithubMap
deriving DecidableEq, Repr

/-- The github object built from a live provider profile (auth.go `Me`, API
success path): login and avatar_url unconditionally, each optional field only
when its value is non-empty. -/
def githubFromApi (gh : GhUser) : GithubMap :=
  { login := gh.login
    avatarUrl := some gh.avatarURL
    name := if gh.name ≠ [] then some gh.name else none
    email := if gh.email ≠ [] then some gh.email else none
    location := if gh.location ≠ [] then some gh.location else none
    bio := if gh.bio ≠ [] then some gh.bio else none
    website := if gh.blog ≠ [] then some gh.blog else none }

/-- The github object built from the cached plaintext row (auth.go `Me`,
fallback path): present only when a cached login exists; avatar_url only when
the cached value is present and non-empty. -/
def githubFromCache (cached : Option (Str × Option Str)) : Option GithubMap :=
  match cached with
  | none => none
  | some (lg, av) =>
      some { login := lg
             avatarUrl := match av with
               | some s => if s ≠ [] then some s else none
               | none => none
             name := none, email := none, location := none, bio := none,
             website := none }

/-- The `Me` handler of auth.go: reject an unparsable user id; otherwise
always answer 200 with id and role, enriching with the live provider profile
when the vault yields a token and the provider call succeeds, and falling back
to the cached plaintext login/avatar row when either fails.  The vault lookup
result, the provider call and the cached row are inputs (the out-of-scope
collaborators). -/
def MeHandler (userId : Option Nat) (role : Str)
    (vault : Option LinkedAccount) (api : Str → Option GhUser)
    (cached : Option (Str × Option Str)) : MeResp :=
  match userId with
  | none => ⟨401, none, none, none⟩
  | some uid =>
      let gh : Option GithubMap :=
        match vault with
        | some acct =>
            match api acct.accessToken with
            | some ghu => some (githubFromApi ghu)
            | none => githubFromCache cached
        | none => githubFromCache cached
      ⟨200, some uid, some role, gh⟩

/-- Number of nonce rows keyed by a given (token, wallet identity). -/
def matchCount (w : WalletType) (a t : Str) (ns : List Nonce) : Nat :=
  (ns.filter (nonceMatches w a t)).length

theorem consumeNonce_eq_none_iff (now : Nat) (w : WalletType) (a t : Str)
    (ns : List Nonce) :
    consumeNonce now w a t ns = none ↔
      ∀ n ∈ ns, ¬(nonceMatches w a t n = true ∧ nonceLive now n = true) := by
  induction ns with
  | nil => simp [consumeNonce]
  | cons n rest ih =>
      rw [consumeNonce]
      cases hc : nonceMatches w a t n && nonceLive now n with
      | true =>
          rw [Bool.and_eq_true] at hc
          simp [hc]
      | false =>
          have hc' : ¬(nonceMatches w a t n = true ∧ nonceLive now n = true) := by
            rw [← Bool.and_eq_true, hc]; simp
          rw [if_neg (by simp), Option.map_eq_none', ih]
          constructor
          · intro hr m hm
            rcases List.mem_cons.mp hm with rfl | hm'
            · exact hc'
            · exact hr m hm'
          · intro hall m hm
            exact hall m (List.mem_cons_of_mem _ hm)

theorem consumeNonce_isSome_exists {now : Nat} {w : WalletType} {a t : Str}
    {ns ns' : List Nonce} (h : consumeNonce now w a t ns = some ns') :
    ∃ n ∈ ns, nonceMatches w a t n = true ∧ nonceLive now n = true := by
  by_contra hc
  push_neg at hc
  have : consumeNonce now w a t ns = none := by
    rw [consumeNonce_eq_none_iff]
    intro n hn ⟨h1, h2⟩
    exact (hc n hn h1) h2
  rw [this] at h
  exact Option.noConfusion h

theorem one_le_matchCount {w : WalletType} {a t : Str} {ns : List Nonce}
    {n : Nonce} (hn : n ∈ ns) (hm : nonceMatches w a t n = true) :
    1 ≤ matchCount w a t ns := by
  have : n ∈ ns.filter (nonceMatches w a t) := List.mem_filter.mpr ⟨hn, hm⟩
  have hlen := List.length_pos.mpr (List.ne_nil_of_mem this)
  simpa [matchCount] using hlen

theorem consumeNonce_consumes_matches (now : Nat) (w : WalletType) (a t : Str) :
    ∀ {ns ns' : List Nonce}, matchCount w a t ns ≤ 1 →
      consumeNonce now w a t ns = some ns' →
      ∀ n ∈ ns', nonceMatches w a t n = true → n.consumed = true := by
  intro ns
  induction ns with
  | nil => intro ns' _ h; rw [consumeNonce] at h; exact Option.noConfusion h
  | cons n rest ih =>
      intro ns' hu h m hm hmatch
      rw [consumeNonce] at h
      by_cases hc : (nonceMatches w a t n && nonceLive now n) = true
      · rw [if_pos hc] at h
        rw [Bool.and_eq_true] at hc
        obtain rfl := (Option.some.injEq _ _).mp h
        rcases List.mem_cons.mp hm with rfl | hmr
        · rfl
        · exfalso
          have hcount : matchCount w a t (n :: rest) =
              matchCount w a t rest + 1 := by
            simp [matchCount, List.filter_cons, hc.1]
          have h1 := one_le_matchCount hmr hmatch
          omega
      · rw [if_neg hc] at h
        obtain ⟨rest', hr, rfl⟩ := Option.map_eq_some'.mp h
        obtain ⟨m0, hm0, hm0m, hm0l⟩ := consumeNonce_isSome_exists hr
        rcases List.mem_cons.mp hm with rfl | hmr
        · exfalso
          have hcount : matchCount w a t (m :: rest) =
              matchCount w a t rest + 1 := by
            simp [matchCount, List.filter_cons, hmatch]
          have h1 := one_le_matchCount hm0 hm0m
          omega
        · have hur : matchCount w a t rest ≤ 1 := by
            have : matchCount w a t rest ≤ matchCount w a t (n :: rest) := by
              by_cases hn : nonceMatches w a t n = true
              · simp [matchCount, List.filter_cons, hn]
              · simp [matchCount, List.filter_cons, hn]
            omega
          exact ih hur hr m hmr hmatch

theorem consumeNonce_replay_none (now₂ : Nat) (w : WalletType) (a t : Str)
    {ns' : List Nonce}
    (hall : ∀ n ∈ ns', nonceMatches w a t n = true → n.consumed = true) :
    consumeNonce now₂ w a t ns' = none := by
  rw [consumeNonce_eq_none_iff]
  intro n hn ⟨hm, hl⟩
  have hcons := hall n hn hm
  rw [nonceLive, hcons] at hl
  simp at hl

theorem consume_upsert_nonces {st : DBState} {now : Nat} {w : WalletType}
    {a tok pk : Str} {u : User} {r : LinkRow} {st' : DBState}
    (h : ConsumeNonceAndUpsertUser st now w a tok pk = some (u, r, st')) :
    consumeNonce now w a tok st.nonces = some st'.nonces := by
  unfold ConsumeNonceAndUpsertUser at h
  cases hc : consumeNonce now w a tok st.nonces with
  | none => rw [hc] at h; exact Option.noConfusion h
  | some ns =>
      rw [hc] at h
      cases hf : st.rows.find? (fun r => decide (r.walletType = w ∧ r.address = a)) with
      | none =>
          rw [hf] at h
          simp only [Option.some.injEq, Prod.mk.injEq] at h
          obtain ⟨-, -, rfl⟩ := h
          rfl
      | some r0 =>
          rw [hf] at h
          simp only [Option.some.injEq, Prod.mk.injEq] at h
          obtain ⟨-, -, rfl⟩ := h
          rfl

theorem consume_upsert_link {st : DBState} {now : Nat} {w : WalletType}
    {a tok pk : Str} {u : User} {r : LinkRow} {st' : DBState}
    (h : ConsumeNonceAndUpsertUser st now w a tok pk = some (u, r, st')) :
    r.walletType = w ∧ r.address = a := by
  unfold ConsumeNonceAndUpsertUser at h
  cases hc : consumeNonce now w a tok st.nonces with
  | none => rw [hc] at h; exact Option.noConfusion h
  | some ns =>
      rw [hc] at h
      cases hf : st.rows.find? (fun r => decide (r.walletType = w ∧ r.address = a)) with
      | none =>
          rw [hf] at h
          simp only [Option.some.injEq, Prod.mk.injEq] at h
          obtain ⟨-, hr, -⟩ := h
          rw [← hr]
          exact ⟨rfl, rfl⟩
      | some r0 =>
          rw [hf] at h
          simp only [Option.some.injEq, Prod.mk.injEq] at h
          obtain ⟨-, hr, -⟩ := h
          have hp := List.find?_some hf
          rw [decide_eq_true_eq] at hp
          rw [← hr]
          exact hp

theorem sigAccepted_none (w : WalletType) (a nonce pk : Str) :
    sigAccepted w a nonce none pk = false := by
  simp [sigAccepted, VerifySignature]

theorem verifyHandler_success_inv {jw : Str} {st : DBState} {now : Nat}
    {req : VerifyReq} {tk : Jwt} {u : User} {wt : WalletType} {ad : Str}
    {st₁ : DBState} {k : Nat}
    (h : VerifyHandler jw st now req = ⟨.success tk u wt ad, st₁, k⟩) :
    ∃ w a r,
      NormalizeWalletType req.walletType = some w ∧
      NormalizeAddress w req.address = some a ∧
      req.nonce ≠ [] ∧ req.signature ≠ none ∧
      sigAccepted w a req.nonce req.signature req.publicKey = true ∧
      ConsumeNonceAndUpsertUser st now w a req.nonce req.publicKey =
        some (u, r, st₁) ∧
      wt = r.walletType ∧ ad = r.address ∧
      tk = IssueJWT jw u.id u.role r.walletType r.address now (15 * 60) ∧
      k = 1 := by
  unfold VerifyHandler at h
  split at h
  next hw => simp at h
  next w hw =>
    split at h
    next ha => simp at h
    next a ha =>
      split at h
      next hmiss => simp at h
      next hmiss =>
        push_neg at hmiss
        split at h
        next hsig =>
          split at h
          next hc => simp at h
          next u0 r0 st0 hc =>
            simp only [VOut.mk.injEq, VerifyResp.success.injEq] at h
            obtain ⟨⟨htk, hu, hwt, had⟩, hst, hk⟩ := h
            refine ⟨w, a, r0, hw, ha, hmiss.1, hmiss.2, hsig, ?_, hwt.symm,
              had.symm, ?_, hk.symm⟩
            · rw [← hu, ← hst]; exact hc
            · rw [hu] at htk; exact htk.symm
        next hsig => simp at h

theorem normalizeAddress_evm_inv {raw a : Str}
    (h : NormalizeAddress .evm raw = some a) :
    a = strLower raw ∧ raw.length = 42 ∧ raw.take 2 = [48, 120] ∧
      (raw.drop 2).all isHexCode = true := by
  simp only [NormalizeAddress] at h
  split at h
  · next hv =>
      exact ⟨((Option.some.injEq _ _).mp h).symm, hv.1, hv.2.1, hv.2.2⟩
  · exact Option.noConfusion h

theorem normalizeAddress_solana_inv {raw a : Str}
    (h : NormalizeAddress .solana raw = some a) :
    a = raw ∧ 32 ≤ raw.length ∧ raw.length ≤ 44 ∧
      raw.all isBase58Code = true := by
  simp only [NormalizeAddress] at h
  split at h
  · next hv =>
      exact ⟨((Option.some.injEq _ _).mp h).symm, hv.1, hv.2.1, hv.2.2⟩
  · exact Option.noConfusion h

/-- C9: for every valid (walletType, address) pair, `NormalizeAddress` is
idempotent — normalizing an already-normalized address returns the same value —
and deterministic across casing: two valid spellings of the same logical
address (identical up to letter case for the case-folded EVM family,
identical for the case-significant base58 family) normalize to the same
canonical output. -/
theorem normalizeAddress_idempotent_case_insensitive :
    (∀ (w : WalletType) (raw a : Str), NormalizeAddress w raw = some a →
        NormalizeAddress w a = some a) ∧
    (∀ (w : WalletType) (a b na nb : Str), sameLogicalSpelling w a b →
        NormalizeAddress w a = some na → NormalizeAddress w b = some nb →
        na = nb) := by
  constructor
  · intro w raw a h
    cases w with
    | evm =>
        obtain ⟨rfl, h1, h2, h3⟩ := normalizeAddress_evm_inv h
        obtain ⟨g1, g2, g3⟩ := normalizeAddress_evm_valid_lower h1 h2 h3
        rw [normalizeAddress_evm_eq g1 g2 g3, strLower_idem]
    | solana =>
        obtain ⟨rfl, -, -, -⟩ := normalizeAddress_solana_inv h
        exact h
  · intro w a b na nb hsame hna hnb
    cases w with
    | evm =>
        obtain ⟨rfl, -, -, -⟩ := normalizeAddress_evm_inv hna
        obtain ⟨rfl, -, -, -⟩ := normalizeAddress_evm_inv hnb
        exact hsame
    | solana =>
        obtain ⟨rfl, -, -, -⟩ := normalizeAddress_solana_inv hna
        obtain ⟨rfl, -, -, -⟩ := normalizeAddress_solana_inv hnb
        exact hsame

/-- The canonical (lower-case) test EVM address "0x" followed by 40 times 'a'. -/
def wAddr : Str := [48, 120] ++ List.replicate 40 97

/-- The same logical test address spelled in upper case: "0x" and 40 times 'A'. -/
def wAddrUp : Str := [48, 120] ++ List.replicate 40 65

/-- Witness for C9 at the concrete address "0x" ++ 40 * 'a': idempotence and
case-invariance hold at an explicit input. -/
theorem normalizeAddress_idempotent_case_insensitive_witness :
    NormalizeAddress WalletType.evm wAddr = some wAddr ∧
    ∀ na nb, NormalizeAddress WalletType.evm wAddrUp = some na →
      NormalizeAddress WalletType.evm wAddr = some nb → na = nb := by
  constructor
  · exact normalizeAddress_idempotent_case_insensitive.1 .evm wAddrUp wAddr
      (by decide)
  · intro na nb h1 h2
    exact normalizeAddress_idempotent_case_insensitive.2 .evm wAddrUp wAddr
      na nb (show strLower wAddrUp = strLower wAddr by decide) h1 h2

/-- A concrete test nonce token. -/
def wTok : Str := [116, 49]

/-- A concrete unconsumed nonce for (evm, wAddr), created at 0, expiring at 600. -/
def wNonce0 : Nonce := ⟨wTok, .evm, wAddr, 0, 600, false⟩

/-- A concrete store holding exactly that nonce and no identities. -/
def wSt0 : DBState := ⟨[wNonce0], [], 0⟩

/-- A concrete valid signature of (evm, wAddr) over the canonical message. -/
def wSig : Sig := ⟨.evm, wAddr, LoginMessage wTok⟩

/-- A concrete verify request carrying that token and signature. -/
def wReq : VerifyReq := ⟨evmName, wAddr, wTok, some wSig, []⟩

/-- The user created by the first successful login of the test scenario. -/
def wUser : User := ⟨0, defaultRole⟩

/-- The wallet link created by the first successful login of the test scenario. -/
def wRow : LinkRow := ⟨wUser, .evm, wAddr, []⟩

/-- The store after the first successful login: nonce consumed, identity rows
created. -/
def wSt1 : DBState := ⟨[⟨wTok, .evm, wAddr, 0, 600, true⟩], [wRow], 1⟩

/-- The bearer token issued by the first successful login of the test scenario. -/
def wJwt : Jwt := IssueJWT [] 0 defaultRole .evm wAddr 0 (15 * 60)

/-- C2: the signature of a verify request is checked against exactly the two
message renderings, canonical first, then legacy: the request clears the
signature gate iff the signature verifies over at least one of the two, and a
signature bound to any third, unrecognized rendering is rejected with
`invalidSignature`. -/
theorem verify_signature_two_renderings (jw : Str) (st : DBState) (now : Nat)
    (req : VerifyReq) (w : WalletType) (a : Str)
    (hw : NormalizeWalletType req.walletType = some w)
    (ha : NormalizeAddress w req.address = some a)
    (hn : req.nonce ≠ []) (hs : req.signature ≠ none) :
    ((VerifyHandler jw st now req).resp ≠ .invalidSignature ↔
      (VerifySignature w a (LoginMessage req.nonce) req.signature
          req.publicKey = true ∨
       VerifySignature w a (LegacyLoginMessage req.nonce) req.signature
          req.publicKey = true)) ∧
    (∀ s : Sig, req.signature = some s → s.msg ≠ LoginMessage req.nonce →
      s.msg ≠ LegacyLoginMessage req.nonce →
      (VerifyHandler jw st now req).resp = .invalidSignature) := by
  have hnot : ¬(req.nonce = [] ∨ req.signature = none) := by
    rintro (h1 | h2)
    · exact hn h1
    · exact hs h2
  have hsa : sigAccepted w a req.nonce req.signature req.publicKey =
      (VerifySignature w a (LoginMessage req.nonce) req.signature req.publicKey ||
       VerifySignature w a (LegacyLoginMessage req.nonce) req.signature
         req.publicKey) := by
    simp [sigAccepted]
  constructor
  · cases hb : sigAccepted w a req.nonce req.signature req.publicKey with
    | false =>
        have hb' := hb
        rw [hsa, Bool.or_eq_false_iff] at hb'
        simp [VerifyHandler, hw, ha, if_neg hnot, hb, hb'.1, hb'.2]
    | true =>
        simp only [VerifyHandler, hw, ha, if_neg hnot, hb]
        rw [hsa, Bool.or_eq_true] at hb
        cases hc : ConsumeNonceAndUpsertUser st now w a req.nonce req.publicKey with
        | none => simpa using hb
        | some res => obtain ⟨u0, r0, st0⟩ := res; simpa using hb
  · intro s hsig hm1 hm2
    have hfalse : sigAccepted w a req.nonce req.signature req.publicKey = false := by
      rw [hsa, hsig]
      simp [VerifySignature, hm1, hm2]
    simp only [VerifyHandler, hw, ha, if_neg hnot, hfalse]
    simp

/-- Witness for C2 at the concrete successful scenario: the request with a
valid canonical-message signature clears the gate, and the same request with
the signature rebound to a third rendering is rejected. -/
theorem verify_signature_two_renderings_witness :
    ((VerifyHandler [] wSt0 0 wReq).resp ≠ .invalidSignature ↔
      (VerifySignature .evm wAddr (LoginMessage wReq.nonce) wReq.signature
          wReq.publicKey = true ∨
       VerifySignature .evm wAddr (LegacyLoginMessage wReq.nonce) wReq.signature
          wReq.publicKey = true)) ∧
    (∀ s : Sig, wReq.signature = some s → s.msg ≠ LoginMessage wReq.nonce →
      s.msg ≠ LegacyLoginMessage wReq.nonce →
      (VerifyHandler [] wSt0 0 wReq).resp = .invalidSignature) :=
  verify_signature_two_renderings [] wSt0 0 wReq .evm wAddr (by decide)
    (by decide) (by decide) (by decide)

/-- C3: a verify request whose signature fails over both accepted renderings
answers `invalidSignature`, leaves the store untouched (nonce unconsumed, no
user or wallet link created) and performs no storage operation, so no bearer
token is issued. -/
theorem verify_signature_failure_terminal (jw : Str) (st : DBState) (now : Nat)
    (req : VerifyReq) (w : WalletType) (a : Str)
    (hw : NormalizeWalletType req.walletType = some w)
    (ha : NormalizeAddress w req.address = some a)
    (hn : req.nonce ≠ []) (hs : req.signature ≠ none)
    (hsig : VerifySignature w a (LoginMessage req.nonce) req.signature
        req.publicKey = false)
    (hsig' : VerifySignature w a (LegacyLoginMessage req.nonce) req.signature
        req.publicKey = false) :
    VerifyHandler jw st now req = ⟨.invalidSignature, st, 0⟩ := by
  have hnot : ¬(req.nonce = [] ∨ req.signature = none) := by
    rintro (h1 | h2)
    · exact hn h1
    · exact hs h2
  have hfalse : sigAccepted w a req.nonce req.signature req.publicKey = false := by
    simp [sigAccepted, hsig, hsig']
  simp only [VerifyHandler, hw, ha, if_neg hnot, hfalse]
  simp

/-- A verify request like `wReq` but with the signature bound to a garbage
message, so it verifies over neither accepted rendering. -/
def wReqBadSig : VerifyReq := ⟨evmName, wAddr, wTok, some ⟨.evm, wAddr, [0]⟩, []⟩

/-- Witness for C3: the concrete badly-signed request gets `invalidSignature`,
the store is unchanged and no storage operation happens. -/
theorem verify_signature_failure_terminal_witness :
    VerifyHandler [] wSt0 0 wReqBadSig = ⟨.invalidSignature, wSt0, 0⟩ :=
  verify_signature_failure_terminal [] wSt0 0 wReqBadSig .evm wAddr (by decide)
    (by decide) (by decide) (by decide) (by decide) (by decide)

/-- C4: for both the issue-nonce and the verify-and-login handlers, an invalid
wallet type, an invalid address, or an empty nonce/signature is reported with
its specific error code before any storage access: the store is returned
unchanged and the count of storage operations is zero. -/
theorem validation_before_storage :
    (∀ (st : DBState) (now : Nat) (ft : Str) (req : NonceReq),
        NormalizeWalletType req.walletType = none →
        NonceHandler st now ft req = ⟨.invalidWalletType, st, 0⟩) ∧
    (∀ (st : DBState) (now : Nat) (ft : Str) (req : NonceReq) (w : WalletType),
        NormalizeWalletType req.walletType = some w →
        NormalizeAddress w req.address = none →
        NonceHandler st now ft req = ⟨.invalidAddress, st, 0⟩) ∧
    (∀ (jw : Str) (st : DBState) (now : Nat) (req : VerifyReq),
        NormalizeWalletType req.walletType = none →
        VerifyHandler jw st now req = ⟨.invalidWalletType, st, 0⟩) ∧
    (∀ (jw : Str) (st : DBState) (now : Nat) (req : VerifyReq) (w : WalletType),
        NormalizeWalletType req.walletType = some w →
        NormalizeAddress w req.address = none →
        VerifyHandler jw st now req = ⟨.invalidAddress, st, 0⟩) ∧
    (∀ (jw : Str) (st : DBState) (now : Nat) (req : VerifyReq) (w : WalletType)
        (a : Str),
        NormalizeWalletType req.walletType = some w →
        NormalizeAddress w req.address = some a →
        (req.nonce = [] ∨ req.signature = none) →
        VerifyHandler jw st now req = ⟨.missingNonceOrSignature, st, 0⟩) := by
  refine ⟨?_, ?_, ?_, ?_, ?_⟩
  · intro st now ft req h
    simp [NonceHandler, h]
  · intro st now ft req w hw ha
    simp [NonceHandler, hw, ha]
  · intro jw st now req h
    simp [VerifyHandler, h]
  · intro jw st now req w hw ha
    simp [VerifyHandler, hw, ha]
  · intro jw st now req w a hw ha hmiss
    simp [VerifyHandler, hw, ha, if_pos hmiss]

/-- Witness for C4: each of the five validation failures evaluated at a
concrete bad request leaves a concrete store untouched. -/
theorem validation_before_storage_witness :
    NonceHandler wSt0 0 [] ⟨[120], wAddr⟩ = ⟨.invalidWalletType, wSt0, 0⟩ ∧
    NonceHandler wSt0 0 [] ⟨evmName, [48]⟩ = ⟨.invalidAddress, wSt0, 0⟩ ∧
    VerifyHandler [] wSt0 0 ⟨[120], wAddr, wTok, some wSig, []⟩ =
      ⟨.invalidWalletType, wSt0, 0⟩ ∧
    VerifyHandler [] wSt0 0 ⟨evmName, [48], wTok, some wSig, []⟩ =
      ⟨.invalidAddress, wSt0, 0⟩ ∧
    VerifyHandler [] wSt0 0 ⟨evmName, wAddr, [], some wSig, []⟩ =
      ⟨.missingNonceOrSignature, wSt0, 0⟩ :=
  ⟨validation_before_storage.1 wSt0 0 [] ⟨[120], wAddr⟩ (by decide),
   validation_before_storage.2.1 wSt0 0 [] ⟨evmName, [48]⟩ .evm (by decide)
     (by decide),
   validation_before_storage.2.2.1 [] wSt0 0 ⟨[120], wAddr, wTok, some wSig, []⟩
     (by decide),
   validation_before_storage.2.2.2.1 [] wSt0 0 ⟨evmName, [48], wTok, some wSig, []⟩
     .evm (by decide) (by decide),
   validation_before_storage.2.2.2.2 [] wSt0 0 ⟨evmName, wAddr, [], some wSig, []⟩
     .evm wAddr (by decide) (by decide) (Or.inl rfl)⟩

/-- C5: when a verify request passes validation and carries a valid signature
but every stored nonce row keyed by its (token, wallet identity) is absent,
already consumed, or past its expiry, the handler answers exactly
`invalidOrExpiredNonce`, the transaction rolls back so the store is unchanged,
and no bearer token is issued. -/
theorem verify_dead_nonce_rejected (jw : Str) (st : DBState) (now : Nat)
    (req : VerifyReq) (w : WalletType) (a : Str)
    (hw : NormalizeWalletType req.walletType = some w)
    (ha : NormalizeAddress w req.address = some a)
    (hn : req.nonce ≠ [])
    (hsig : sigAccepted w a req.nonce req.signature req.publicKey = true)
    (hdead : ∀ n ∈ st.nonces, nonceMatches w a req.nonce n = true →
        n.consumed = true ∨ n.expiresAt ≤ now) :
    VerifyHandler jw st now req = ⟨.invalidOrExpiredNonce, st, 1⟩ := by
  have hs : req.signature ≠ none := by
    intro h0
    rw [h0, sigAccepted_none] at hsig
    exact Bool.noConfusion hsig
  have hnot : ¬(req.nonce = [] ∨ req.signature = none) := by
    rintro (h1 | h2)
    · exact hn h1
    · exact hs h2
  have hnone : consumeNonce now w a req.nonce st.nonces = none := by
    rw [consumeNonce_eq_none_iff]
    intro n hn' hAB
    obtain ⟨h1, h2⟩ := hAB
    rw [nonceLive, Bool.and_eq_true] at h2
    obtain ⟨h2a, h2b⟩ := h2
    rw [decide_eq_true_eq] at h2b
    rcases hdead n hn' h1 with hcons | hexp
    · rw [hcons] at h2a
      exact Bool.noConfusion h2a
    · omega
  have hcons : ConsumeNonceAndUpsertUser st now w a req.nonce req.publicKey =
      none := by
    unfold ConsumeNonceAndUpsertUser
    rw [hnone]
  simp [VerifyHandler, hw, ha, if_neg hnot, hsig, hcons]

/-- The test store after its nonce has expired but was never consumed. -/
def wStExp : DBState := ⟨[⟨wTok, .evm, wAddr, 0, 600, false⟩], [], 0⟩

/-- Witness for C5: presenting the concrete valid signature at time 601, past
the nonce expiry 600, yields `invalidOrExpiredNonce` with the store unchanged. -/
theorem verify_dead_nonce_rejected_witness :
    VerifyHandler [] wStExp 601 wReq = ⟨.invalidOrExpiredNonce, wStExp, 1⟩ :=
  verify_dead_nonce_rejected [] wStExp 601 wReq .evm wAddr (by decide)
    (by decide) (by decide) (by decide)
    (by intro n hn' h1; right; simp only [wStExp, List.mem_singleton] at hn'
        rw [hn']; decide)

/-- C6: whenever the verify handler succeeds, the issued bearer token is
signed with the configured secret, expires exactly 15 minutes after `now`, and
carries exactly the upserted user's id and role and the normalized wallet type
and address as claims; the success response carries that token together with
the user and the wallet identity. -/
theorem verify_success_issues_token (jw : Str) (st : DBState) (now : Nat)
    (req : VerifyReq) (tk : Jwt) (u : User) (wt : WalletType) (ad : Str)
    (st₁ : DBState) (k : Nat)
    (h : VerifyHandler jw st now req = ⟨.success tk u wt ad, st₁, k⟩) :
    ∃ w a r,
      NormalizeWalletType req.walletType = some w ∧
      NormalizeAddress w req.address = some a ∧
      ConsumeNonceAndUpsertUser st now w a req.nonce req.publicKey =
        some (u, r, st₁) ∧
      wt = w ∧ ad = a ∧
      tk.secret = jw ∧ tk.userId = u.id ∧ tk.role = u.role ∧
      tk.walletType = wt ∧ tk.address = ad ∧ tk.expiresAt = now + 15 * 60 := by
  obtain ⟨w, a, r, hw, ha, -, -, -, hc, hwt, had, htk, -⟩ :=
    verifyHandler_success_inv h
  obtain ⟨hrw, hra⟩ := consume_upsert_link hc
  subst htk
  exact ⟨w, a, r, hw, ha, hc, by rw [hwt, hrw], by rw [had, hra],
    rfl, rfl, rfl, hwt.symm, had.symm, rfl⟩

/-- Witness for C6: the concrete successful login run, with the issued token's
claims and 15-minute expiry checked at that run. -/
theorem verify_success_issues_token_witness :
    ∃ w a r,
      NormalizeWalletType wReq.walletType = some w ∧
      NormalizeAddress w wReq.address = some a ∧
      ConsumeNonceAndUpsertUser wSt0 0 w a wReq.nonce wReq.publicKey =
        some (wUser, r, wSt1) ∧
      WalletType.evm = w ∧ wAddr = a ∧
      wJwt.secret = [] ∧ wJwt.userId = wUser.id ∧ wJwt.role = wUser.role ∧
      wJwt.walletType = .evm ∧ wJwt.address = wAddr ∧
      wJwt.expiresAt = 0 + 15 * 60 :=
  verify_success_issues_token [] wSt0 0 wReq wJwt wUser .evm wAddr wSt1 1
    (by decide)

/-- C1: once a nonce token has been consumed by a successful verify-and-login,
any later verify attempt presenting the same token for the same wallet
identity fails with `invalidOrExpiredNonce` — even with a valid signature and
at any later time — and no bearer token is issued.  The store is assumed to
hold at most one nonce row keyed by that (token, wallet identity), which the
≥128-bit random tokens guarantee. -/
theorem verify_nonce_replay_rejected (jw : Str) (st : DBState)
    (now now₂ : Nat) (req req₂ : VerifyReq) (tk : Jwt) (u : User)
    (wt : WalletType) (ad : Str) (st₁ : DBState) (k : Nat) (w : WalletType)
    (a : Str)
    (hw : NormalizeWalletType req.walletType = some w)
    (ha : NormalizeAddress w req.address = some a)
    (huniq : matchCount w a req.nonce st.nonces ≤ 1)
    (h1 : VerifyHandler jw st now req = ⟨.success tk u wt ad, st₁, k⟩)
    (hw2 : NormalizeWalletType req₂.walletType = some w)
    (ha2 : NormalizeAddress w req₂.address = some a)
    (hn2 : req₂.nonce = req.nonce)
    (hsig2 : sigAccepted w a req₂.nonce req₂.signature req₂.publicKey = true) :
    VerifyHandler jw st₁ now₂ req₂ = ⟨.invalidOrExpiredNonce, st₁, 1⟩ := by
  obtain ⟨w', a', r, hw', ha', hne, -, -, hc, -, -, -, -⟩ :=
    verifyHandler_success_inv h1
  rw [hw] at hw'
  injection hw' with hww
  subst hww
  rw [ha] at ha'
  injection ha' with haa
  subst haa
  have hcn : consumeNonce now w a req.nonce st.nonces = some st₁.nonces :=
    consume_upsert_nonces hc
  have hall := consumeNonce_consumes_matches now w a req.nonce huniq hcn
  have hnone : consumeNonce now₂ w a req₂.nonce st₁.nonces = none := by
    rw [hn2]
    exact consumeNonce_replay_none now₂ w a req.nonce hall
  have hcons2 : ConsumeNonceAndUpsertUser st₁ now₂ w a req₂.nonce
      req₂.publicKey = none := by
    unfold ConsumeNonceAndUpsertUser
    rw [hnone]
  have hs2 : req₂.signature ≠ none := by
    intro h0
    rw [h0, sigAccepted_none] at hsig2
    exact Bool.noConfusion hsig2
  have hn2ne : req₂.nonce ≠ [] := by
    rw [hn2]
    exact hne
  have hnot2 : ¬(req₂.nonce = [] ∨ req₂.signature = none) := by
    rintro (h1' | h2')
    · exact hn2ne h1'
    · exact hs2 h2'
  simp [VerifyHandler, hw2, ha2, if_neg hnot2, hsig2, hcons2]

/-- Witness for C1: after the concrete successful login, replaying the very
same request is rejected with `invalidOrExpiredNonce` and the consumed store
unchanged. -/
theorem verify_nonce_replay_rejected_witness :
    VerifyHandler [] wSt1 1 wReq = ⟨.invalidOrExpiredNonce, wSt1, 1⟩ :=
  verify_nonce_replay_rejected [] wSt0 0 1 wReq wReq wJwt wUser .evm wAddr
    wSt1 1 .evm wAddr (by decide) (by decide) (by decide) (by decide)
    (by decide) (by decide) rfl (by decide)

theorem map_sub_add (key : Nat) :
    ∀ (l : List Nat), (∀ x ∈ l, key ≤ x) →
      (l.map (fun x => x - key)).map (fun x => x + key) = l := by
  intro l
  induction l with
  | nil => intro _; rfl
  | cons a t ih =>
      intro h
      simp only [List.map_cons, List.cons.injEq]
      constructor
      · exact Nat.sub_add_cancel (h a (List.mem_cons_self a t))
      · exact ih (fun x hx => h x (List.mem_cons_of_mem a hx))

/-- C7: the stored-token encryption is authenticated: decryption of an honest
ciphertext under its key returns the original plaintext; decryption under any
wrong key fails; and whenever decryption succeeds, the ciphertext is exactly
the encryption of the returned plaintext under that key — so a tampered or
corrupted ciphertext can never decrypt to corrupted plaintext. -/
theorem token_encryption_authenticated :
    (∀ (key : Nat) (pt : List Nat),
        DecryptToken key (EncryptToken key pt) = some pt) ∧
    (∀ (key key' : Nat) (pt : List Nat), key ≠ key' →
        DecryptToken key' (EncryptToken key pt) = none) ∧
    (∀ (key : Nat) (ct : Ciphertext) (pt : List Nat),
        DecryptToken key ct = some pt → EncryptToken key pt = ct) := by
  refine ⟨?_, ?_, ?_⟩
  · intro key pt
    have hall : ((pt.map (fun x => x + key)).all
        (fun x => decide (key ≤ x))) = true := by
      rw [List.all_eq_true]
      intro x hx
      rw [List.mem_map] at hx
      obtain ⟨y, -, rfl⟩ := hx
      exact decide_eq_true_eq.mpr (Nat.le_add_left key y)
    simp only [DecryptToken, EncryptToken, hall, and_true, if_pos rfl,
      List.map_map, Option.some.injEq]
    rw [if_pos trivial, Option.some.injEq]
    calc pt.map ((fun x => x - key) ∘ fun x => x + key)
        = pt.map id := List.map_congr_left
          (fun x _ => by simp)
      _ = pt := List.map_id pt
  · intro key key' pt hne
    have : ¬((EncryptToken key pt).tag = key' :: (EncryptToken key pt).body ∧
        ((EncryptToken key pt).body.all (fun x => decide (key' ≤ x)))) := by
      intro hAB
      obtain ⟨hA, -⟩ := hAB
      simp only [EncryptToken, List.cons.injEq] at hA
      exact hne hA.1
    simp only [DecryptToken, if_neg this]
  · intro key ct pt h
    simp only [DecryptToken] at h
    split at h
    · next hcond =>
        obtain ⟨htag, hall⟩ := hcond
        rw [Option.some.injEq] at h
        subst h
        have hb : ∀ x ∈ ct.body, key ≤ x := by
          rw [List.all_eq_true] at hall
          intro x hx
          exact decide_eq_true_eq.mp (hall x hx)
        have hbody : (ct.body.map (fun x => x - key)).map (fun x => x + key) =
            ct.body := map_sub_add key ct.body hb
        cases ct with
        | mk body tag =>
            simp only [EncryptToken, Ciphertext.mk.injEq] at *
            exact ⟨hbody, by rw [hbody, htag]⟩
    · exact Option.noConfusion h

/-- Witness for C7: the three guarantees evaluated at key 3, wrong key 4 and
the concrete plaintext [7, 0]. -/
theorem token_encryption_authenticated_witness :
    DecryptToken 3 (EncryptToken 3 [7, 0]) = some [7, 0] ∧
    DecryptToken 4 (EncryptToken 3 [7, 0]) = none ∧
    EncryptToken 3 [7, 0] = ⟨[10, 3], [3, 10, 3]⟩ :=
  ⟨token_encryption_authenticated.1 3 [7, 0],
   token_encryption_authenticated.2.1 3 4 [7, 0] (by decide),
   token_encryption_authenticated.2.2 3 ⟨[10, 3], [3, 10, 3]⟩ [7, 0]
     (by decide)⟩

theorem me_fallback_github_eq (u : Nat) (role : Str)
    (vault : Option LinkedAccount) (api : Str → Option GhUser)
    (cached : Option (Str × Option Str))
    (hfail : vault = none ∨
      ∃ acct, vault = some acct ∧ api acct.accessToken = none) :
    (MeHandler (some u) role vault api cached).github =
      githubFromCache cached := by
  rcases hfail with rfl | ⟨acct, rfl, hapi⟩
  · rfl
  · simp [MeHandler, hapi]

theorem githubFromCache_spec (cached : Option (Str × Option Str)) :
    ((githubFromCache cached).isSome ↔ cached.isSome) ∧
    (∀ lg av, cached = some (lg, av) →
      ∃ g, githubFromCache cached = some g ∧ g.login = lg ∧
        ((∃ s, av = some s ∧ s ≠ [] ∧ g.avatarUrl = some s) ∨
         (g.avatarUrl = none ∧ (av = none ∨ av = some []))) ∧
        g.name = none ∧ g.email = none ∧ g.location = none ∧ g.bio = none ∧
        g.website = none) := by
  constructor
  · cases cached with
    | none => simp [githubFromCache]
    | some p =>
        obtain ⟨lg, av⟩ := p
        simp [githubFromCache]
  · intro lg av hc
    subst hc
    refine ⟨_, rfl, rfl, ?_, rfl, rfl, rfl, rfl, rfl⟩
    cases av with
    | none => exact Or.inr ⟨rfl, Or.inl rfl⟩
    | some s =>
        by_cases hs : s = []
        · subst hs
          exact Or.inr ⟨by simp [githubFromCache], Or.inr rfl⟩
        · exact Or.inl ⟨s, rfl, hs, by simp [githubFromCache, hs]⟩

/-- C8: for a valid authenticated user id, the identity-fetch request never
fails: whatever the vault lookup, the external provider call and the cached
row yield, the response status is 200 and carries the user id and role; and
when the vault lookup or the provider call fails, the github object degrades
to the cached plaintext login/avatar row. -/
theorem me_identity_never_fails (u : Nat) (role : Str)
    (vault : Option LinkedAccount) (api : Str → Option GhUser)
    (cached : Option (Str × Option Str)) :
    (MeHandler (some u) role vault api cached).status = 200 ∧
    (MeHandler (some u) role vault api cached).id = some u ∧
    (MeHandler (some u) role vault api cached).role = some role ∧
    ((vault = none ∨
        ∃ acct, vault = some acct ∧ api acct.accessToken = none) →
      (MeHandler (some u) role vault api cached).github =
        githubFromCache cached) := by
  refine ⟨?_, ?_, ?_, me_fallback_github_eq u role vault api cached⟩
  · cases vault <;> rfl
  · cases vault <;> rfl
  · cases vault <;> rfl

/-- A provider lookup that always fails, for the degraded-mode witnesses. -/
def apiNone : Str → Option GhUser := fun _ => none

/-- A concrete cached github row: login "lg" with an empty cached avatar. -/
def cachedRow : Option (Str × Option Str) := some ([108, 103], some [])

/-- Witness for C8: with no linked vault entry and a failing provider the
concrete identity fetch still succeeds with id and role, falling back to the
cached row. -/
theorem me_identity_never_fails_witness :
    (MeHandler (some 1) defaultRole none apiNone cachedRow).status = 200 ∧
    (MeHandler (some 1) defaultRole none apiNone cachedRow).id = some 1 ∧
    (MeHandler (some 1) defaultRole none apiNone cachedRow).role =
      some defaultRole ∧
    ((none = (none : Option LinkedAccount) ∨
        ∃ acct, (none : Option LinkedAccount) = some acct ∧
          apiNone acct.accessToken = none) →
      (MeHandler (some 1) defaultRole none apiNone cachedRow).github =
        githubFromCache cachedRow) :=
  me_identity_never_fails 1 defaultRole none apiNone cachedRow

/-- C10: the optional github fields of an identity-fetch response are emitted
only when non-empty.  On the live-provider path the profile's name, email,
location, bio and website appear exactly when the provider returned a
non-empty value (login and avatar_url are always present there); on the
cached-fallback path the github object exists exactly when a cached login row
exists, its avatar_url appears exactly when the cached value is present and
non-empty, and the five provider-only fields are always omitted. -/
theorem me_optional_fields_omitted (u : Nat) (role : Str)
    (vault : Option LinkedAccount) (api : Str → Option GhUser)
    (cached : Option (Str × Option Str)) :
    (∀ acct ghu, vault = some acct → api acct.accessToken = some ghu →
      ∃ g, (MeHandler (some u) role vault api cached).github = some g ∧
        g.login = ghu.login ∧ g.avatarUrl = some ghu.avatarURL ∧
        ((g.name = some ghu.name ∧ ghu.name ≠ []) ∨
          (g.name = none ∧ ghu.name = [])) ∧
        ((g.email = some ghu.email ∧ ghu.email ≠ []) ∨
          (g.email = none ∧ ghu.email = [])) ∧
        ((g.location = some ghu.location ∧ ghu.location ≠ []) ∨
          (g.location = none ∧ ghu.location = [])) ∧
        ((g.bio = some ghu.bio ∧ ghu.bio ≠ []) ∨
          (g.bio = none ∧ ghu.bio = [])) ∧
        ((g.website = some ghu.blog ∧ ghu.blog ≠ []) ∨
          (g.website = none ∧ ghu.blog = []))) ∧
    ((vault = none ∨
        ∃ acct, vault = some acct ∧ api acct.accessToken = none) →
      ((MeHandler (some u) role vault api cached).github.isSome ↔
        cached.isSome) ∧
      (∀ lg av, cached = some (lg, av) →
        ∃ g, (MeHandler (some u) role vault api cached).github = some g ∧
          g.login = lg ∧
          ((∃ s, av = some s ∧ s ≠ [] ∧ g.avatarUrl = some s) ∨
            (g.avatarUrl = none ∧ (av = none ∨ av = some []))) ∧
          g.name = none ∧ g.email = none ∧ g.location = none ∧ g.bio = none ∧
          g.website = none)) := by
  constructor
  · intro acct ghu hv hapi
    subst hv
    have hgh : (MeHandler (some u) role (some acct) api cached).github =
        some (githubFromApi ghu) := by
      simp [MeHandler, hapi]
    refine ⟨githubFromApi ghu, hgh, rfl, rfl, ?_, ?_, ?_, ?_, ?_⟩
    · by_cases hx : ghu.name = []
      · exact Or.inr ⟨by simp [githubFromApi, hx], hx⟩
      · exact Or.inl ⟨by simp [githubFromApi, hx], hx⟩
    · by_cases hx : ghu.email = []
      · exact Or.inr ⟨by simp [githubFromApi, hx], hx⟩
      · exact Or.inl ⟨by simp [githubFromApi, hx], hx⟩
    · by_cases hx : ghu.location = []
      · exact Or.inr ⟨by simp [githubFromApi, hx], hx⟩
      · exact Or.inl ⟨by simp [githubFromApi, hx], hx⟩
    · by_cases hx : ghu.bio = []
      · exact Or.inr ⟨by simp [githubFromApi, hx], hx⟩
      · exact Or.inl ⟨by simp [githubFromApi, hx], hx⟩
    · by_cases hx : ghu.blog = []
      · exact Or.inr ⟨by simp [githubFromApi, hx], hx⟩
      · exact Or.inl ⟨by simp [githubFromApi, hx], hx⟩
  · intro hfail
    rw [me_fallback_github_eq u role vault api cached hfail]
    exact githubFromCache_spec cached

/-- A concrete provider profile: login "g", avatar "a", empty name, non-empty
email, the rest empty. -/
def ghApiUser : GhUser := ⟨[103], [97], [], [110], [], [], []⟩

/-- A provider lookup that always returns `ghApiUser`. -/
def apiSome : Str → Option GhUser := fun _ => some ghApiUser

/-- Witness for C10: the live-provider path at the concrete mixed profile, and
the cached-fallback path at the concrete cached row with an empty avatar. -/
theorem me_optional_fields_omitted_witness :
    (∃ g, (MeHandler (some 1) defaultRole (some ⟨[]⟩) apiSome
        cachedRow).github = some g ∧
      g.login = ghApiUser.login ∧ g.avatarUrl = some ghApiUser.avatarURL ∧
      ((g.name = some ghApiUser.name ∧ ghApiUser.name ≠ []) ∨
        (g.name = none ∧ ghApiUser.name = [])) ∧
      ((g.email = some ghApiUser.email ∧ ghApiUser.email ≠ []) ∨
        (g.email = none ∧ ghApiUser.email = [])) ∧
      ((g.location = some ghApiUser.location ∧ ghApiUser.location ≠ []) ∨
        (g.location = none ∧ ghApiUser.location = [])) ∧
      ((g.bio = some ghApiUser.bio ∧ ghApiUser.bio ≠ []) ∨
        (g.bio = none ∧ ghApiUser.bio = [])) ∧
      ((g.website = some ghApiUser.blog ∧ ghApiUser.blog ≠ []) ∨
        (g.website = none ∧ ghApiUser.blog = []))) ∧
    (∃ g, (MeHandler (some 1) defaultRole none apiNone cachedRow).github =
        some g ∧
      g.login = [108, 103] ∧
      ((∃ s, (some [] : Option Str) = some s ∧ s ≠ [] ∧
          g.avatarUrl = some s) ∨
        (g.avatarUrl = none ∧ ((some [] : Option Str) = none ∨
          (some [] : Option Str) = some []))) ∧
      g.name = none ∧ g.email = none ∧ g.location = none ∧ g.bio = none ∧
      g.website = none) :=
  ⟨(me_optional_fields_omitted 1 defaultRole (some ⟨[]⟩) apiSome cachedRow).1
      ⟨[]⟩ ghApiUser rfl rfl,
   ((me_optional_fields_omitted 1 defaultRole none apiNone cachedRow).2
      (Or.inl rfl)).2 [108, 103] (some []) rfl⟩
